import Mathlib

/-!
Shallow embedding of the xvoice pipeline (src/preprocessing.py,
src/transcription.py, src/video_processing.py) and proofs about the claims
of its specification.  Machine arithmetic of the source is modelled with
exact `Nat`/`Int`/`ℚ` arithmetic; Python dictionaries and dynamically typed
values are modelled with `Option` fields and small inductive value types;
fallible code returns `Except`.
-/

namespace XVoice

/-! ## Python value model for `format_timestamp` (src/transcription.py:300-308) -/

/-- A dynamically typed Python value, restricted to the shapes that can reach
`format_timestamp`: `None`, an int, a float (modelled exactly as a rational;
the model has no NaN/inf), or a string. -/
inductive PyVal
  | vNone
  | vInt (n : Int)
  | vRat (q : ℚ)
  | vStr (s : String)
  deriving DecidableEq

/-- The two exception classes relevant to `float(x)`: `TypeError` (e.g. on
`None`) and `ValueError` (on a non-numeric string). -/
inductive PyErr
  | typeError
  | valueError
  deriving DecidableEq

deriving instance DecidableEq for Except

/-- Reads a decimal digit string as a natural number. -/
def digitsToNat (l : List Char) : Nat :=
  l.foldl (fun n c => 10 * n + (c.toNat - '0'.toNat)) 0

/-- Strips leading and trailing whitespace from a character list. -/
def trimChars (l : List Char) : List Char :=
  ((l.dropWhile Char.isWhitespace).reverse.dropWhile Char.isWhitespace).reverse

/-- Splits a character list at every occurrence of `sep` (like Python
`str.split(sep)`: n separators yield n+1 pieces, possibly empty). -/
def splitOnChar (sep : Char) (l : List Char) : List (List Char) :=
  l.foldr
    (fun c acc =>
      match acc with
      | [] => [[c]]
      | a :: rest => if c = sep then [] :: a :: rest else (c :: a) :: rest)
    [[]]

/-- Models Python `float(s)` string parsing on plain decimal literals:
optional surrounding whitespace, optional sign, digits with an optional
fractional part.  Any other string fails (ValueError). -/
def parseFloat? (s : String) : Option ℚ :=
  let t := trimChars s.data
  let neg : Bool := t.head? = some '-'
  let body := if t.head? = some '-' || t.head? = some '+' then t.tail else t
  let signQ : ℚ := if neg then -1 else 1
  match splitOnChar '.' body with
  | [ip] =>
      if ip ≠ [] && ip.all Char.isDigit then
        some (signQ * ((digitsToNat ip : Nat) : ℚ))
      else none
  | [ip, fp] =>
      if (ip ≠ [] || fp ≠ []) && ip.all Char.isDigit && fp.all Char.isDigit then
        some (signQ * (((digitsToNat ip : Nat) : ℚ) +
          ((digitsToNat fp : Nat) : ℚ) / ((10 : ℚ) ^ fp.length)))
      else none
  | _ => none

/-- Models Python `float(x)`: numbers convert to themselves, strings are
parsed (ValueError on failure), `None` raises TypeError. -/
def pyFloat : PyVal → Except PyErr ℚ
  | .vNone => .error .typeError
  | .vInt n => .ok (n : ℚ)
  | .vRat q => .ok q
  | .vStr s =>
      match parseFloat? s with
      | some q => .ok q
      | none => .error .valueError

/-- Models Python `int(x)` on a float: truncation toward zero. -/
def truncQ (q : ℚ) : Int :=
  if 0 ≤ q then q.floor else q.ceil

/-- Models Python `divmod(a, b)` on ints: floor division and its remainder. -/
def pyDivmod (a b : Int) : Int × Int :=
  (a.fdiv b, a.fmod b)

/-- Models the Python format spec `{n:02}`: zero-pad to total width 2,
the sign included in the width. -/
def pad2 (n : Int) : String :=
  let sign := if n < 0 then "-" else ""
  let digits := toString n.natAbs
  let width := 2 - sign.length
  let padded :=
    if digits.length < width then
      String.mk (List.replicate (width - digits.length) '0') ++ digits
    else digits
  sign ++ padded

/-- The numeric success path of `format_timestamp` (src/transcription.py:302-305):
truncate to int seconds, divmod into H/M/S, render as a bracketed clock. -/
def fmtClock (q : ℚ) : String :=
  let seconds := truncQ q
  let hm := pyDivmod seconds 3600
  let ms := pyDivmod hm.2 60
  "[" ++ pad2 hm.1 ++ ":" ++ pad2 ms.1 ++ ":" ++ pad2 ms.2 ++ "]"

/-- Embeds `format_timestamp` (src/transcription.py:300-308).  The source
wraps `int(float(seconds))` in `try ... except ValueError`: a ValueError is
caught and yields the default string, while any other exception (notably the
TypeError from `float(None)`) escapes uncaught, modelled as `.error`. -/
def format_timestamp (v : PyVal) : Except PyErr String :=
  match pyFloat v with
  | .ok q => .ok (fmtClock q)
  | .error .valueError => .ok "[00:00:00]"
  | .error e => .error e

/-- On a float (the only shape the transcription engine passes),
`format_timestamp` always succeeds with the clock rendering `fmtClock`. -/
theorem format_timestamp_vRat (q : ℚ) :
    format_timestamp (PyVal.vRat q) = Except.ok (fmtClock q) := rfl

/-- C5 counterexample: the claim says every invalid input, `None` included,
yields `"[00:00:00]"` without raising; but `float(None)` raises a TypeError,
which the source's `except ValueError` does not catch, so the call raises. -/
theorem format_timestamp_none_counterexample :
    format_timestamp PyVal.vNone = Except.error PyErr.typeError ∧
    format_timestamp PyVal.vNone ≠ Except.ok "[00:00:00]" := by
  constructor
  · rfl
  · decide

/-- C5 amended: `format_timestamp 3725 = "[01:02:05]"`, `format_timestamp 0 =
"[00:00:00]"`; an invalid input whose conversion raises ValueError (any
non-numeric string) yields `"[00:00:00]"` without raising; but `None` raises
an uncaught TypeError. -/
theorem format_timestamp_amended (s : String) (hs : parseFloat? s = none) :
    format_timestamp (PyVal.vInt 3725) = Except.ok "[01:02:05]" ∧
    format_timestamp (PyVal.vInt 0) = Except.ok "[00:00:00]" ∧
    format_timestamp (PyVal.vStr s) = Except.ok "[00:00:00]" ∧
    format_timestamp PyVal.vNone = Except.error PyErr.typeError := by
  refine ⟨by decide, by decide, ?_, rfl⟩
  simp [format_timestamp, pyFloat, hs]

/-- Witness for the C5 amended theorem at the concrete invalid string "abc". -/
theorem format_timestamp_amended_witness :
    parseFloat? "abc" = none ∧
    (format_timestamp (PyVal.vInt 3725) = Except.ok "[01:02:05]" ∧
     format_timestamp (PyVal.vInt 0) = Except.ok "[00:00:00]" ∧
     format_timestamp (PyVal.vStr "abc") = Except.ok "[00:00:00]" ∧
     format_timestamp PyVal.vNone = Except.error PyErr.typeError) :=
  ⟨by decide, format_timestamp_amended "abc" (by decide)⟩

/-! ## Segmenter: `split_audio` (src/preprocessing.py:52-86)

The pydub `AudioSegment` is modelled by its length in integer milliseconds
(`len(audio)` in pydub is the millisecond count); `duration = len(audio)/1000`
and `max_duration` comparisons and the `math.ceil` are carried out exactly,
so every test on the float `duration` is replaced by the equivalent integer
test on milliseconds. -/

/-- The last component of a `/`-separated path (`os.path.basename`). -/
def baseName (p : String) : String :=
  (p.splitOn "/").getLastD p

/-- The deterministic name of the 0-indexed `i`-th part file
(src/preprocessing.py:81): basename with every ".wav" removed, then
`_part{i+1}.wav`, in the output directory. -/
def partName (inputPath outputDir : String) (i : Nat) : String :=
  outputDir ++ "/" ++ (baseName inputPath).replace ".wav" "" ++ "_part" ++
    toString (i + 1) ++ ".wav"

/-- Exact value of `math.ceil(duration / max_duration)` with
`duration = lenMs / 1000` seconds: the ceiling division of the millisecond
length by `1000 * maxDur`. -/
def numParts (lenMs maxDur : Nat) : Nat :=
  (lenMs + 1000 * maxDur - 1) / (1000 * maxDur)

/-- Observable outcome of `split_audio`: the returned path list, the
millisecond slice bounds of each exported part, the files created, and
whether the output directory was created. -/
structure SplitOutcome where
  returned : List String
  slicesMs : List (Nat × Nat)
  created : List String
  madeDir : Bool

/-- Embeds `split_audio` (src/preprocessing.py:52-86).  `duration <=
max_duration` is the exact integer test `lenMs ≤ 1000 * maxDur`; otherwise
the directory is created and part `i` is the slice
`[i*max_duration*1000, min((i+1)*max_duration*1000, len(audio)))`. -/
def split_audio (inputPath outputDir : String) (lenMs maxDur : Nat) : SplitOutcome :=
  if lenMs ≤ 1000 * maxDur then
    { returned := [inputPath], slicesMs := [], created := [], madeDir := false }
  else
    let n := numParts lenMs maxDur
    let names := (List.range n).map (partName inputPath outputDir)
    { returned := names
      slicesMs := (List.range n).map
        (fun i => (i * (1000 * maxDur), min ((i + 1) * (1000 * maxDur)) lenMs))
      created := names
      madeDir := true }

/-- Ceiling division written as `(len - 1) / m + 1` for positive `len`, `m`. -/
theorem ceil_div_eq_pred_div_succ (len m : Nat) (hm : 0 < m) (hlen : 0 < len) :
    (len + m - 1) / m = (len - 1) / m + 1 := by
  have h1 : len + m - 1 = (len - 1) + m := by omega
  rw [h1, Nat.add_div_right _ hm]

/-- The whole audio fits in `numParts` parts of size `m = 1000 * maxDur`. -/
theorem len_le_numParts_mul (len m : Nat) (hm : 0 < m) (hlen : 0 < len) :
    len ≤ ((len + m - 1) / m) * m := by
  rw [ceil_div_eq_pred_div_succ len m hm hlen]
  have hdm := Nat.div_add_mod' (len - 1) m
  have hmod : (len - 1) % m < m := Nat.mod_lt _ hm
  have hdist : ((len - 1) / m + 1) * m = ((len - 1) / m) * m + m := by ring
  omega

/-- The last of the `numParts` parts starts strictly inside the audio. -/
theorem pred_numParts_mul_lt (len m : Nat) (hm : 0 < m) (hlen : 0 < len) :
    ((len + m - 1) / m - 1) * m < len := by
  rw [ceil_div_eq_pred_div_succ len m hm hlen]
  simp only [Nat.add_sub_cancel]
  have hle := Nat.div_mul_le_self (len - 1) m
  omega

/-- Telescoping sum of the slice lengths: the first `k` slices of size `m`
clipped to `len` cover exactly `min (k*m) len` milliseconds. -/
theorem slice_sum_eq_min (m len : Nat) :
    ∀ k : Nat,
      (((List.range k).map fun i => min ((i + 1) * m) len - i * m)).sum =
        min (k * m) len := by
  intro k
  induction k with
  | zero => simp
  | succ k ih =>
      rw [List.range_succ, List.map_append, List.sum_append, ih]
      simp only [List.map_cons, List.map_nil, List.sum_cons, List.sum_nil]
      rcases Nat.le_total (k * m) len with h | h
      · have h1 : min (k * m) len = k * m := Nat.min_eq_left h
        have h2 : k * m ≤ (k + 1) * m := Nat.mul_le_mul_right m (Nat.le_succ k)
        rcases Nat.le_total ((k + 1) * m) len with h3 | h3
        · rw [Nat.min_eq_left h3, h1]; omega
        · rw [Nat.min_eq_right h3, h1]; omega
      · have h1 : min (k * m) len = len := Nat.min_eq_right h
        have h3 : len ≤ (k + 1) * m :=
          le_trans h (Nat.mul_le_mul_right m (Nat.le_succ k))
        rw [Nat.min_eq_right h3, h1]; omega

/-- C4: when the duration is within the ceiling (`lenMs ≤ 1000 * maxDur`,
the exact form of `duration <= max_duration`), `split_audio` returns exactly
`[input_path]`, creates no files and does not create the output directory. -/
theorem split_audio_short_circuit (inputPath outputDir : String)
    (lenMs maxDur : Nat) (h : lenMs ≤ 1000 * maxDur) :
    split_audio inputPath outputDir lenMs maxDur =
      { returned := [inputPath], slicesMs := [], created := [], madeDir := false } := by
  simp [split_audio, h]

/-- Witness for C4 at a 200000 ms audio with a 300 s ceiling. -/
theorem split_audio_short_circuit_witness :
    200000 ≤ 1000 * 300 ∧
    split_audio "in.wav" "out" 200000 300 =
      { returned := ["in.wav"], slicesMs := [], created := [], madeDir := false } :=
  ⟨by decide, split_audio_short_circuit "in.wav" "out" 200000 300 (by decide)⟩

/-- C3: for an audio strictly longer than the ceiling, `split_audio` returns
exactly `numParts lenMs maxDur = ceil(duration/max_duration)` chunk paths
named with ascending 1-based part indices, whose millisecond slices
`[i*m, min((i+1)*m, lenMs))` (`m = 1000*maxDur`) tile `[0, lenMs)` with no
gap or overlap: slice `0` starts at `0`, each slice ends where the next
starts, every slice is non-empty, the final slice ends exactly at `lenMs`,
and the slice durations sum to `lenMs`. -/
theorem split_audio_tiles (inputPath outputDir : String) (lenMs maxDur : Nat)
    (hm : 0 < maxDur) (hlen : 1000 * maxDur < lenMs) :
    (split_audio inputPath outputDir lenMs maxDur).returned.length =
        numParts lenMs maxDur ∧
    (split_audio inputPath outputDir lenMs maxDur).returned =
        (List.range (numParts lenMs maxDur)).map (partName inputPath outputDir) ∧
    (split_audio inputPath outputDir lenMs maxDur).slicesMs.length =
        numParts lenMs maxDur ∧
    (∀ i (hi : i < (split_audio inputPath outputDir lenMs maxDur).slicesMs.length),
      (split_audio inputPath outputDir lenMs maxDur).slicesMs.get ⟨i, hi⟩ =
        (i * (1000 * maxDur), min ((i + 1) * (1000 * maxDur)) lenMs)) ∧
    ((split_audio inputPath outputDir lenMs maxDur).slicesMs.map Prod.fst).head?
        = some 0 ∧
    (∀ i (hi : i + 1 < (split_audio inputPath outputDir lenMs maxDur).slicesMs.length),
      ((split_audio inputPath outputDir lenMs maxDur).slicesMs.get ⟨i, by omega⟩).2 =
        ((split_audio inputPath outputDir lenMs maxDur).slicesMs.get ⟨i + 1, hi⟩).1) ∧
    (∀ i (hi : i < (split_audio inputPath outputDir lenMs maxDur).slicesMs.length),
      ((split_audio inputPath outputDir lenMs maxDur).slicesMs.get ⟨i, hi⟩).1 <
        ((split_audio inputPath outputDir lenMs maxDur).slicesMs.get ⟨i, hi⟩).2) ∧
    ((split_audio inputPath outputDir lenMs maxDur).slicesMs.getLast?.map Prod.snd)
        = some lenMs ∧
    ((split_audio inputPath outputDir lenMs maxDur).slicesMs.map
        fun sl => sl.2 - sl.1).sum = lenMs := by
  set o := split_audio inputPath outputDir lenMs maxDur with ho'
  set n := numParts lenMs maxDur with hn'
  set m := 1000 * maxDur with hm'
  have hmpos : 0 < m := by show (0 : Nat) < 1000 * maxDur; omega
  have hlpos : 0 < lenMs := by omega
  have hnot : ¬ lenMs ≤ 1000 * maxDur := by omega
  have ho : o = split_audio inputPath outputDir lenMs maxDur := rfl
  have hne : numParts lenMs maxDur = (lenMs + m - 1) / m := rfl
  have hlast : (n - 1) * m < lenMs := by
    show (numParts lenMs maxDur - 1) * m < lenMs
    rw [hne]; exact pred_numParts_mul_lt lenMs m hmpos hlpos
  have hcover : lenMs ≤ n * m := by
    show lenMs ≤ numParts lenMs maxDur * m
    rw [hne]; exact len_le_numParts_mul lenMs m hmpos hlpos
  have hnpos : 0 < n := by
    rcases Nat.eq_zero_or_pos n with h0 | h0
    · rw [h0] at hcover; simp at hcover; omega
    · exact h0
  have hslices : o.slicesMs = (List.range n).map
      (fun i => (i * m, min ((i + 1) * m) lenMs)) := by
    rw [ho]; simp [split_audio, hnot]
  have hreturned : o.returned =
      (List.range n).map (partName inputPath outputDir) := by
    rw [ho]; simp [split_audio, hnot]
  have hlen' : o.slicesMs.length = n := by rw [hslices]; simp
  have hget : ∀ i (hi : i < o.slicesMs.length),
      o.slicesMs.get ⟨i, hi⟩ = (i * m, min ((i + 1) * m) lenMs) := by
    intro i hi
    simp [hslices, List.get_eq_getElem]
  refine ⟨?_, hreturned, hlen', hget, ?_, ?_, ?_, ?_, ?_⟩
  · rw [hreturned]; simp
  · rw [hslices]
    obtain ⟨k, hk⟩ : ∃ k, n = k + 1 := ⟨n - 1, by omega⟩
    rw [hk, List.range_succ_eq_map]
    simp
  · intro i hi
    have hi1 : i + 1 < n := by rwa [hlen'] at hi
    rw [hget i (by omega), hget (i + 1) hi]
    have h1 : (i + 1) * m ≤ (n - 1) * m := by
      have : i + 1 ≤ n - 1 := by omega
      exact Nat.mul_le_mul_right m this
    have h2 : (i + 1) * m < lenMs := by omega
    simp [min_eq_left (le_of_lt h2)]
  · intro i hi
    have hi' : i < n := by rwa [hlen'] at hi
    rw [hget i hi]
    simp only
    have hmul : (i + 1) * m = i * m + m := by ring
    have h2 : i * m < lenMs := by
      have : i * m ≤ (n - 1) * m := by
        have : i ≤ n - 1 := by omega
        exact Nat.mul_le_mul_right m this
      omega
    omega
  · rw [hslices]
    obtain ⟨k, hk⟩ : ∃ k, n = k + 1 := ⟨n - 1, by omega⟩
    rw [hk, List.range_succ, List.map_append]
    simp only [List.map_cons, List.map_nil]
    rw [List.getLast?_concat]
    have hkm : lenMs ≤ (k + 1) * m := by rw [← hk]; exact hcover
    simp [min_eq_right hkm]
  · rw [hslices, List.map_map]
    have heq : ((fun sl : Nat × Nat => sl.2 - sl.1) ∘
        fun i => (i * m, min ((i + 1) * m) lenMs)) =
        fun i => min ((i + 1) * m) lenMs - i * m := rfl
    rw [heq, slice_sum_eq_min m lenMs n, min_eq_right hcover]

/-- Witness for C3 at a 2500 ms audio with a 1 s ceiling (3 parts). -/
theorem split_audio_tiles_witness :
    0 < 1 ∧ 1000 * 1 < 2500 ∧
    ((split_audio "a/in.wav" "dir" 2500 1).returned.length = numParts 2500 1 ∧
     (split_audio "a/in.wav" "dir" 2500 1).returned =
        (List.range (numParts 2500 1)).map (partName "a/in.wav" "dir") ∧
     (split_audio "a/in.wav" "dir" 2500 1).slicesMs.length = numParts 2500 1 ∧
     (∀ i (hi : i < (split_audio "a/in.wav" "dir" 2500 1).slicesMs.length),
       (split_audio "a/in.wav" "dir" 2500 1).slicesMs.get ⟨i, hi⟩ =
         (i * (1000 * 1), min ((i + 1) * (1000 * 1)) 2500)) ∧
     ((split_audio "a/in.wav" "dir" 2500 1).slicesMs.map Prod.fst).head? = some 0 ∧
     (∀ i (hi : i + 1 < (split_audio "a/in.wav" "dir" 2500 1).slicesMs.length),
       ((split_audio "a/in.wav" "dir" 2500 1).slicesMs.get ⟨i, by omega⟩).2 =
         ((split_audio "a/in.wav" "dir" 2500 1).slicesMs.get ⟨i + 1, hi⟩).1) ∧
     (∀ i (hi : i < (split_audio "a/in.wav" "dir" 2500 1).slicesMs.length),
       ((split_audio "a/in.wav" "dir" 2500 1).slicesMs.get ⟨i, hi⟩).1 <
         ((split_audio "a/in.wav" "dir" 2500 1).slicesMs.get ⟨i, hi⟩).2) ∧
     ((split_audio "a/in.wav" "dir" 2500 1).slicesMs.getLast?.map Prod.snd)
        = some 2500 ∧
     ((split_audio "a/in.wav" "dir" 2500 1).slicesMs.map
        fun sl => sl.2 - sl.1).sum = 2500) :=
  ⟨by decide, by decide, split_audio_tiles "a/in.wav" "dir" 2500 1 (by decide) (by decide)⟩

/-! ## Audio Normalizer: `normalize_audio` (src/preprocessing.py:6-50)

The filesystem is modelled as a map from path strings to optional file
contents; the two ffmpeg invocations are external collaborators whose exit
status is a parameter (`step1Ok`, `step2Ok`).  A failed invocation is
modelled as writing nothing (per the spec's collaborator contract a non-zero
exit produces no usable output).  `subprocess.run(..., check=True)` raising
`CalledProcessError` and the surrounding `except` are modelled by control
flow: the `except` branch only logs, so `normalize_audio` never lets the
error escape. -/

/-- Content of a file in the model filesystem. -/
inductive FileData
  | rawAudio
  | normContent (src : String)
  | bandpassed (inner : FileData)
  deriving DecidableEq

/-- Pointwise update of the model filesystem. -/
def fsUpdate (fs : String → Option FileData) (p : String) (d : Option FileData) :
    String → Option FileData :=
  fun q => if q = p then d else fs q

/-- Models `os.replace(src, dest)`: move `src` over `dest` (a rename of a
path onto itself leaves the filesystem unchanged). -/
def osReplace (fs : String → Option FileData) (src dest : String) :
    String → Option FileData :=
  if src = dest then fs
  else fsUpdate (fsUpdate fs dest (fs src)) src none

/-- The sibling path used by the denoise stage
(src/preprocessing.py:39): `output_path.replace(".wav", "_denoised.wav")`. -/
def denoisedName (outputPath : String) : String :=
  outputPath.replace ".wav" "_denoised.wav"

/-- Result of `normalize_audio`: the filesystem afterwards and whether the
`except subprocess.CalledProcessError` branch ran (the failure is only
printed; no exception leaves the function). -/
structure NormResult where
  fs : String → Option FileData
  errorLogged : Bool

/-- Embeds `normalize_audio` (src/preprocessing.py:6-50).  Step 1 (loudnorm)
writes `output_path`; with `noise_reduction`, step 2 writes the band-passed
file to the `_denoised` sibling and only then `os.replace`s it over
`output_path`.  A non-zero exit of either tool jumps to the `except` branch,
which logs and returns. -/
def normalize_audio (fs0 : String → Option FileData) (inputPath outputPath : String)
    (noise_reduction : Bool) (step1Ok step2Ok : Bool) : NormResult :=
  if !step1Ok then { fs := fs0, errorLogged := true }
  else
    let fs1 := fsUpdate fs0 outputPath (some (.normContent inputPath))
    if noise_reduction then
      if !step2Ok then { fs := fs1, errorLogged := true }
      else
        let dn := denoisedName outputPath
        let fs2 := fsUpdate fs1 dn (some (.bandpassed (.normContent inputPath)))
        { fs := osReplace fs2 dn outputPath, errorLogged := false }
    else { fs := fs1, errorLogged := false }

/-- C7: with denoising enabled, a failing band-pass invocation leaves the
step-1 normalized output at `output_path` unchanged; the replacement of
`output_path` happens only after the filter tool exits successfully (second
conjunct: on success `output_path` holds the band-passed content). -/
theorem normalize_audio_denoise_failure_preserves_step1
    (fs0 : String → Option FileData) (inputPath outputPath : String) :
    (normalize_audio fs0 inputPath outputPath true true false).fs outputPath =
      some (FileData.normContent inputPath) ∧
    (normalize_audio fs0 inputPath outputPath true true false).errorLogged = true ∧
    (normalize_audio fs0 inputPath outputPath true true true).fs outputPath =
      some (FileData.bandpassed (FileData.normContent inputPath)) := by
  refine ⟨by simp [normalize_audio, fsUpdate], by simp [normalize_audio], ?_⟩
  by_cases hdn : denoisedName outputPath = outputPath
  · simp [normalize_audio, osReplace, hdn, fsUpdate]
  · simp [normalize_audio, osReplace, hdn, fsUpdate]
    exact fun h => hdn h.symm

/-! ## Orchestrator step sequence: `process_audio_file` (src/transcription.py:136-187)

For claim C6 only the control flow around normalization matters, so the
trace records which pipeline steps were reached.  After `normalize_audio`
returns (it never raises), the orchestrator unconditionally calls
`split_audio(output_path, ...)`; `AudioSegment.from_wav` raises if that file
is absent, and the orchestrator's blanket `except` logs the per-file
failure.  The transcription, save and cleanup steps are abstracted to the
fact that they are reached (none of them raises: the batch transcriber and
the writer catch their own exceptions). -/

/-- Which steps of `process_audio_file` ran for one file. -/
structure PipelineTrace where
  errorLoggedNorm : Bool
  splitInvoked : Bool
  decodeRaised : Bool
  transcribeInvoked : Bool
  saveInvoked : Bool
  fileFailureLogged : Bool
  deriving DecidableEq

/-- Embeds the step sequence of `process_audio_file`
(src/transcription.py:155-187) with `use_normalization = True`. -/
def process_audio_file (fs0 : String → Option FileData)
    (inputPath outputPath : String) (step1Ok step2Ok : Bool) : PipelineTrace :=
  let nr := normalize_audio fs0 inputPath outputPath true step1Ok step2Ok
  match nr.fs outputPath with
  | none =>
      { errorLoggedNorm := nr.errorLogged, splitInvoked := true,
        decodeRaised := true, transcribeInvoked := false,
        saveInvoked := false, fileFailureLogged := true }
  | some _ =>
      { errorLoggedNorm := nr.errorLogged, splitInvoked := true,
        decodeRaised := false, transcribeInvoked := true,
        saveInvoked := true, fileFailureLogged := false }

/-- C6 counterexample: with a denoise-stage ffmpeg failure the error is only
logged inside `normalize_audio`; the orchestrator then runs the split step
and goes on to transcribe the step-1 output — processing of the file does
not stop, contradicting the claim. -/
theorem process_audio_norm_failure_counterexample :
    (process_audio_file (fun _ => none) "in.wav" "out.wav" true false).errorLoggedNorm
        = true ∧
    (process_audio_file (fun _ => none) "in.wav" "out.wav" true false).splitInvoked
        = true ∧
    (process_audio_file (fun _ => none) "in.wav" "out.wav" true false).transcribeInvoked
        = true := by
  refine ⟨?_, ?_, ?_⟩ <;>
    simp [process_audio_file, normalize_audio, fsUpdate]

/-- C6 amended: a non-zero tool exit inside `normalize_audio` is caught and
logged there and no exception propagates; the orchestrator then still
invokes the split step.  Processing of the file stops only when the
normalized output file is absent (the decoder raises and the per-file
handler logs the failure); after a denoise-stage failure the step-1 output
exists and transcription proceeds on it. -/
theorem process_audio_norm_failure_amended (fs0 : String → Option FileData)
    (inputPath outputPath : String) (step1Ok step2Ok : Bool)
    (hfail : step1Ok = false ∨ (step1Ok = true ∧ step2Ok = false)) :
    (process_audio_file fs0 inputPath outputPath step1Ok step2Ok).errorLoggedNorm
        = true ∧
    (process_audio_file fs0 inputPath outputPath step1Ok step2Ok).splitInvoked
        = true ∧
    (step1Ok = false → fs0 outputPath = none →
      (process_audio_file fs0 inputPath outputPath step1Ok step2Ok).fileFailureLogged
          = true ∧
      (process_audio_file fs0 inputPath outputPath step1Ok step2Ok).transcribeInvoked
          = false) ∧
    (step1Ok = true →
      (process_audio_file fs0 inputPath outputPath step1Ok step2Ok).transcribeInvoked
          = true) := by
  rcases hfail with h1 | ⟨h1, h2⟩
  · subst h1
    refine ⟨?_, ?_, ?_, ?_⟩
    · by_cases h : fs0 outputPath = none <;>
        simp [process_audio_file, normalize_audio, h]
      · obtain ⟨d, hd⟩ := Option.ne_none_iff_exists'.mp h
        simp [hd]
    · by_cases h : fs0 outputPath = none <;>
        simp [process_audio_file, normalize_audio, h]
      · obtain ⟨d, hd⟩ := Option.ne_none_iff_exists'.mp h
        simp [hd]
    · intro _ h
      constructor <;> simp [process_audio_file, normalize_audio, h]
    · intro hcon
      exact absurd hcon (by decide)
  · subst h1; subst h2
    refine ⟨?_, ?_, ?_, ?_⟩
    · simp [process_audio_file, normalize_audio, fsUpdate]
    · simp [process_audio_file, normalize_audio, fsUpdate]
    · intro hcon
      exact absurd hcon (by decide)
    · intro _
      simp [process_audio_file, normalize_audio, fsUpdate]

/-- Witness for the C6 amended theorem: denoise stage fails on an empty
filesystem. -/
theorem process_audio_norm_failure_amended_witness :
    ((true : Bool) = false ∨ ((true : Bool) = true ∧ (false : Bool) = false)) ∧
    ((process_audio_file (fun _ => none) "in.wav" "out.wav" true false).errorLoggedNorm
        = true ∧
     (process_audio_file (fun _ => none) "in.wav" "out.wav" true false).splitInvoked
        = true ∧
     ((true : Bool) = false → (fun _ => (none : Option FileData)) "out.wav" = none →
       (process_audio_file (fun _ => none) "in.wav" "out.wav" true false).fileFailureLogged
          = true ∧
       (process_audio_file (fun _ => none) "in.wav" "out.wav" true false).transcribeInvoked
          = false) ∧
     ((true : Bool) = true →
       (process_audio_file (fun _ => none) "in.wav" "out.wav" true false).transcribeInvoked
          = true)) :=
  ⟨Or.inr ⟨rfl, rfl⟩,
   process_audio_norm_failure_amended (fun _ => none) "in.wav" "out.wav" true false
     (Or.inr ⟨rfl, rfl⟩)⟩

/-! ## Text Cleaner: `clean_transcription` (src/transcription.py:204-246)

The spaCy pipeline is the external collaborator: it is a parameter mapping
the whitespace-collapsed text to a list of sentences, each carrying its text
and its tokens with their stopword flags.  Python `str.capitalize()`
uppercases the first character and lowercases the rest (modelled for ASCII
with `Char.toUpper`/`Char.toLower`).  The model covers string inputs; the
source's `not isinstance(text, str)` guard and the blanket `except` fallback
have no counterpart because no model branch raises. -/

/-- A spaCy token: its text and its `is_stop` flag. -/
structure Token where
  text : String
  stop : Bool
  deriving DecidableEq

/-- A spaCy sentence span: its text and its tokens. -/
structure Sent where
  text : String
  tokens : List Token
  deriving DecidableEq

/-- Models `re.sub(r"\s+", " ", text).strip()`: whitespace runs collapse to
single spaces and the ends are trimmed. -/
def collapseWs (s : String) : String :=
  String.intercalate " "
    (((s.data.splitOnP Char.isWhitespace).map String.mk).filter (fun w => w ≠ ""))

/-- Models Python `str.capitalize()`: first character uppercased, all
remaining characters lowercased. -/
def pyCapitalize (s : String) : String :=
  match s.data with
  | [] => ""
  | c :: cs => String.mk (c.toUpper :: cs.map Char.toLower)

/-- Embeds `clean_transcription` (src/transcription.py:204-246).  Empty text
is rejected with `""`; otherwise whitespace is collapsed, the text is run
through the NLP collaborator, each sentence is capitalized (the stopword
branch recomputes the text from the non-stop tokens and capitalizes that
instead, discarding the first capitalization), and the sentences are
rejoined with single spaces.  `sentence_segmentation` is accepted and, as in
the source, unused. -/
def clean_transcription (text : String) (nlp : String → List Sent)
    (sentenceSegmentation remove_stopwords : Bool) : String :=
  if text = "" then ""
  else
    let collapsed := collapseWs text
    let doc := nlp collapsed
    let cleaned := doc.map (fun sent =>
      let processed := pyCapitalize sent.text
      let processed :=
        if remove_stopwords then
          pyCapitalize (String.intercalate " "
            ((sent.tokens.filter (fun tok => !tok.stop)).map Token.text))
        else processed
      processed)
    let _ := sentenceSegmentation
    String.intercalate " " cleaned

/-- An NLP collaborator that reports the whole text as one sentence. -/
def nlpWhole : String → List Sent := fun t => [{ text := t, tokens := [] }]

/-- C9 counterexample: on the single-sentence text "i saw Paris" the source
produces "I saw paris" — `str.capitalize()` lowercases the remaining
characters of the sentence, so they are not left unchanged as claimed. -/
theorem clean_transcription_capitalize_counterexample :
    clean_transcription "i saw Paris" nlpWhole true false = "I saw paris" ∧
    "I saw paris" ≠ "I saw Paris" := by
  constructor
  · decide
  · decide

/-- C9 amended: for every non-empty input text, each sentence produced by
the NLP collaborator on the whitespace-collapsed text is rendered as
`str.capitalize()` of its text — first letter uppercased, the remaining
characters lowercased (not left unchanged) — and when stopword removal is
requested the stopword tokens are filtered first and the capitalization is
applied to the filtered text; the sentences are joined with single spaces. -/
theorem clean_transcription_amended (text : String) (nlp : String → List Sent)
    (seg rm : Bool) (hne : text ≠ "") :
    clean_transcription text nlp seg rm =
      String.intercalate " " ((nlp (collapseWs text)).map (fun sent =>
        if rm then
          pyCapitalize (String.intercalate " "
            ((sent.tokens.filter (fun tok => !tok.stop)).map Token.text))
        else pyCapitalize sent.text)) ∧
    (∀ s : String, (pyCapitalize s).data =
      match s.data with
      | [] => []
      | c :: cs => Char.toUpper c :: cs.map Char.toLower) := by
  constructor
  · simp [clean_transcription, hne]
  · intro s
    obtain ⟨l⟩ := s
    cases l <;> simp [pyCapitalize]

/-- Witness for the C9 amended theorem on the text "ab" with the
whole-text-as-one-sentence collaborator. -/
theorem clean_transcription_amended_witness :
    "ab" ≠ "" ∧
    (clean_transcription "ab" nlpWhole true false =
      String.intercalate " " ((nlpWhole (collapseWs "ab")).map (fun sent =>
        if false then
          pyCapitalize (String.intercalate " "
            ((sent.tokens.filter (fun tok => !tok.stop)).map Token.text))
        else pyCapitalize sent.text)) ∧
     (∀ s : String, (pyCapitalize s).data =
       match s.data with
       | [] => []
       | c :: cs => Char.toUpper c :: cs.map Char.toLower)) :=
  ⟨by decide, clean_transcription_amended "ab" nlpWhole true false (by decide)⟩

/-! ## Transcript Writer: `save_transcription` (src/transcription.py:248-277)

The input list's elements are dynamically typed: a dict (modelled by its
optional `start` and `text` fields; other keys are ignored by the source's
`.get` calls), a nested list, or anything else.  The observable output is
the ordered list of lines written to the file. -/

/-- A dynamically typed element of the transcriptions list. -/
inductive PyItem
  | pdict (start? text? : Option String)
  | plist (xs : List PyItem)
  | pother

/-- One output line (src/transcription.py:266,270): the `start` field
defaulting to `"[00:00:00]"`, a space, the stripped `text` field defaulting
to `""`, and a newline. -/
def lineOf (start? text? : Option String) : String :=
  start?.getD "[00:00:00]" ++ " " ++
    String.mk (trimChars (text?.getD "").data) ++ "\n"

/-- Lines contributed by one element: a dict yields its line; a nested list
yields one line per dict element (non-dict elements of the nested list are
skipped by the inner `isinstance` check); anything else is skipped with a
logged warning. -/
def itemLines : PyItem → List String
  | .pdict s t => [lineOf s t]
  | .plist xs =>
      xs.filterMap (fun x =>
        match x with
        | .pdict s t => some (lineOf s t)
        | _ => none)
  | .pother => []

/-- Embeds `save_transcription` (src/transcription.py:248-277) by its
observable output: the ordered list of lines written to the file. -/
def save_transcription (transcriptions : List PyItem) : List String :=
  (transcriptions.map itemLines).flatten

/-- C8: one level of nesting is flattened — the example input produces
exactly the two expected lines in order; missing fields default to
`"[00:00:00]"` and empty text; and an element of any other shape is skipped
without aborting the write (the remaining elements' lines are still
produced, in order). -/
theorem save_transcription_flattening :
    save_transcription
        [PyItem.plist [PyItem.pdict (some "[00:00:00]") (some "a")],
         PyItem.pdict (some "[00:00:05]") (some "b")] =
      ["[00:00:00] a\n", "[00:00:05] b\n"] ∧
    save_transcription [PyItem.pdict none none] = ["[00:00:00] \n"] ∧
    (∀ pre post : List PyItem,
      save_transcription (pre ++ PyItem.pother :: post) =
        save_transcription pre ++ save_transcription post) := by
  refine ⟨by decide, by decide, ?_⟩
  intro pre post
  simp [save_transcription, itemLines]

/-! ## Transcription Engine (src/transcription.py:22-134)

The Whisper model is the external collaborator.  Its observable state is the
execution mode (`model.to("cpu")` mutates the shared handle), and its
behaviour is an oracle mapping a file path and mode to an outcome: a result
dictionary, a `RuntimeError` whose message contains "CUDA out of memory",
another `RuntimeError`, or another exception.  Whisper float times are
modelled as exact rationals.  A CPU run cannot raise a CUDA out-of-memory
error; oracles violating that would make the source recurse forever, so the
corresponding model branches are unreachable under the hypotheses used
below and are given the accumulated-time-preserving value. -/

/-- Execution mode of the shared Whisper model handle. -/
inductive Mode
  | gpu
  | cpu
  deriving DecidableEq

/-- One element of the result's `segments` list; only its `"end"` key is
read, with default `0`. -/
structure WSegment where
  endTime? : Option ℚ
  deriving DecidableEq

/-- The Whisper result dictionary: the optional `"text"` key and the
`"segments"` list (default `[]` via `.get`). -/
structure TResult where
  text? : Option String
  segments : List WSegment
  deriving DecidableEq

/-- Outcome of one `model.transcribe` invocation. -/
inductive TOutcome
  | ok (r : TResult)
  | cudaOOM
  | runtimeErr
  | exc
  deriving DecidableEq

/-- The end offset of the last segment: `float(segments[-1].get("end", 0))`. -/
def lastEnd (segs : List WSegment) : ℚ :=
  ((segs.getLast?).map (fun sg => sg.endTime?.getD 0)).getD 0

/-- One emitted transcription record. -/
structure Record where
  start : String
  text : String
  duration : ℚ
  deriving DecidableEq

/-- The shared success path (src/transcription.py:48-63 and 106-121): no
`"text"` key or an empty `segments` list emits nothing and leaves the
accumulated time unchanged; otherwise the record's `start` is the formatted
pre-chunk accumulated time, its text is cleaned, and the accumulated time
advances by the last segment's end offset. -/
def emitRecord (nlp : String → List Sent) (r : TResult) (acc : ℚ) :
    Option Record × ℚ :=
  match r.text? with
  | none => (none, acc)
  | some txt =>
      match r.segments with
      | [] => (none, acc)
      | _ :: _ =>
          let d := lastEnd r.segments
          (some { start := fmtClock acc,
                  text := clean_transcription txt nlp true false,
                  duration := d },
           acc + d)

/-- The body of `transcribe_audio` run in CPU mode.  A `cudaOOM` outcome in
CPU mode would make the source recurse without bound (`model.to("cpu")` is
already in effect); that branch is physically unreachable and modelled as
the failure return `(None, accumulated_time)`. -/
def transcribe_audio_cpu (pathExists : String → Bool)
    (oracle : String → Mode → TOutcome) (nlp : String → List Sent)
    (file : String) (acc : ℚ) : Option Record × ℚ × Mode :=
  if pathExists file then
    match oracle file .cpu with
    | .ok r =>
        let p := emitRecord nlp r acc
        (p.1, p.2, .cpu)
    | .cudaOOM => (none, acc, .cpu)
    | .runtimeErr => (none, acc, .cpu)
    | .exc => (none, acc, .cpu)
  else (none, acc, .cpu)

/-- Embeds `transcribe_audio` (src/transcription.py:22-76).  A missing file
or a failed/texless/segmentless result returns `(None, accumulated_time)`;
a GPU CUDA out-of-memory error moves the model to CPU and retries the same
chunk once with the same accumulated time (the single unrolled recursive
call of line 69). -/
def transcribe_audio (pathExists : String → Bool)
    (oracle : String → Mode → TOutcome) (nlp : String → List Sent)
    (file : String) (mode : Mode) (acc : ℚ) : Option Record × ℚ × Mode :=
  match mode with
  | .cpu => transcribe_audio_cpu pathExists oracle nlp file acc
  | .gpu =>
      if pathExists file then
        match oracle file .gpu with
        | .ok r =>
            let p := emitRecord nlp r acc
            (p.1, p.2, .gpu)
        | .cudaOOM => transcribe_audio_cpu pathExists oracle nlp file acc
        | .runtimeErr => (none, acc, .gpu)
        | .exc => (none, acc, .gpu)
      else (none, acc, .gpu)

/-- The recognition outcome that actually produces `transcribe_audio`'s
result when starting on the accelerator: the GPU outcome, except that a
CUDA out-of-memory error falls back to the CPU outcome. -/
def effectiveOutcome (oracle : String → Mode → TOutcome) (file : String) :
    TOutcome :=
  match oracle file .gpu with
  | .cudaOOM => oracle file .cpu
  | o => o

/-- Result of one pass of the batch `for` loop (src/transcription.py:95-132):
either the loop ran to completion with the collected records and final
accumulated time, or a CUDA out-of-memory error aborted it, carrying the
accumulated time at the point of failure (the value the source passes to
the recursive batch call on line 127). -/
inductive LoopResult
  | done (recs : List Record) (acc : ℚ)
  | oomRestart (acc : ℚ)

/-- One pass of the batch loop in a fixed mode: missing files, texless or
segmentless results, and non-OOM exceptions are skipped (`continue` or
logged), successful chunks append their record and advance the accumulated
time, and a CUDA out-of-memory error aborts the pass. -/
def batch_loop (pathExists : String → Bool) (oracle : String → Mode → TOutcome)
    (nlp : String → List Sent) (mode : Mode) :
    List String → List Record → ℚ → LoopResult
  | [], recs, acc => .done recs acc
  | f :: rest, recs, acc =>
      if pathExists f then
        match oracle f mode with
        | .ok r =>
            let p := emitRecord nlp r acc
            match p.1 with
            | some rc => batch_loop pathExists oracle nlp mode rest (recs ++ [rc]) p.2
            | none => batch_loop pathExists oracle nlp mode rest recs p.2
        | .cudaOOM => .oomRestart acc
        | .runtimeErr => batch_loop pathExists oracle nlp mode rest recs acc
        | .exc => batch_loop pathExists oracle nlp mode rest recs acc
      else batch_loop pathExists oracle nlp mode rest recs acc

/-- Result of `transcribe_audio_batch`: the returned records and accumulated
time, the model's mode afterwards, and how many times the batch was
restarted by the CUDA fallback (the source's recursive call on line 127). -/
structure BatchResult where
  transcriptions : List Record
  accumulated : ℚ
  mode : Mode
  retries : Nat
  deriving DecidableEq

/-- Embeds `transcribe_audio_batch` (src/transcription.py:78-134).  On a GPU
CUDA out-of-memory error the source discards the partial record list, moves
the model to CPU and re-invokes itself on the whole file list with the
current mid-batch accumulated time; the single unrolled recursive call.  A
second OOM abort (CPU mode) would recurse forever in the source; that branch
is unreachable under the CPU-no-OOM hypotheses used below. -/
def transcribe_audio_batch (pathExists : String → Bool)
    (oracle : String → Mode → TOutcome) (nlp : String → List Sent)
    (files : List String) (mode : Mode) (acc : ℚ) : BatchResult :=
  match batch_loop pathExists oracle nlp mode files [] acc with
  | .done recs acc' => ⟨recs, acc', mode, 0⟩
  | .oomRestart accMid =>
      match mode with
      | .gpu =>
          match batch_loop pathExists oracle nlp .cpu files [] accMid with
          | .done recs acc' => ⟨recs, acc', .cpu, 1⟩
          | .oomRestart acc'' => ⟨[], acc'', .cpu, 1⟩
      | .cpu => ⟨[], accMid, .cpu, 0⟩

/-- A chunk that transcribes successfully in the given mode: the file
exists and the oracle returns a result with a `"text"` key and a non-empty
`segments` list whose recognized end offset is `dur f`. -/
def goodChunk (pathExists : String → Bool) (oracle : String → Mode → TOutcome)
    (mode : Mode) (dur : String → ℚ) (f : String) : Prop :=
  pathExists f = true ∧
  ∃ r, oracle f mode = .ok r ∧ r.text?.isSome = true ∧ r.segments ≠ [] ∧
    lastEnd r.segments = dur f

/-- A successful pass of the batch loop: with every chunk good for the
pass's mode, the loop appends one record per chunk in order; the `i`-th new
record's start is the formatted pre-chunk cumulative time
`acc + dur f_1 + ... + dur f_i` and its duration is `dur f_i`, and the final
accumulated time is `acc` plus the sum of all recognized durations. -/
theorem batch_loop_all_good (pathExists : String → Bool)
    (oracle : String → Mode → TOutcome) (nlp : String → List Sent)
    (mode : Mode) (dur : String → ℚ) :
    ∀ (files : List String) (recs0 : List Record) (acc : ℚ),
      (∀ f ∈ files, goodChunk pathExists oracle mode dur f) →
      ∃ recs,
        batch_loop pathExists oracle nlp mode files recs0 acc =
          .done (recs0 ++ recs) (acc + ((files.map dur).sum)) ∧
        recs.length = files.length ∧
        (∀ i (hi : i < recs.length) (hi' : i < files.length),
          (recs.get ⟨i, hi⟩).start =
            fmtClock (acc + (((files.take i).map dur).sum)) ∧
          (recs.get ⟨i, hi⟩).duration =
            dur (files.get ⟨i, hi'⟩)) := by
  intro files
  induction files with
  | nil =>
      intro recs0 acc _
      exact ⟨[], by simp [batch_loop], by simp, by intro i hi; simp at hi⟩
  | cons f rest ih =>
      intro recs0 acc hgood
      obtain ⟨hex, r, hora, htext, hsegs, hend⟩ := hgood f (List.mem_cons_self f rest)
      obtain ⟨txt, htxt⟩ := Option.isSome_iff_exists.mp htext
      obtain ⟨sg, segs', hsg⟩ := List.exists_cons_of_ne_nil hsegs
      have hrest : ∀ g ∈ rest, goodChunk pathExists oracle mode dur g :=
        fun g hg => hgood g (List.mem_cons_of_mem f hg)
      have hend' : lastEnd (sg :: segs') = dur f := by rw [← hsg]; exact hend
      have hemit : emitRecord nlp r acc =
          (some { start := fmtClock acc,
                  text := clean_transcription txt nlp true false,
                  duration := dur f }, acc + dur f) := by
        simp [emitRecord, htxt, hsg, hend']
      obtain ⟨recs', hloop, hlen, hfields⟩ :=
        ih (recs0 ++ [{ start := fmtClock acc,
                        text := clean_transcription txt nlp true false,
                        duration := dur f }]) (acc + dur f) hrest
      refine ⟨{ start := fmtClock acc,
                text := clean_transcription txt nlp true false,
                duration := dur f } :: recs', ?_, by simp [hlen], ?_⟩
      · rw [batch_loop, if_pos hex, hora]
        simp only [hemit]
        rw [hloop]
        have hm : acc + dur f + ((rest.map dur).sum) =
            acc + (((f :: rest).map dur).sum) := by
          simp [List.map_cons, List.sum_cons]; ring
        rw [hm]
        simp
      · intro i hi hi'
        cases i with
        | zero =>
            constructor
            · simp
            · simp
        | succ j =>
            have hj : j < recs'.length := by
              simp at hi
              omega
            have hj' : j < rest.length := by
              simp at hi'
              omega
            have hf := hfields j hj hj'
            constructor
            · simpa [add_assoc] using hf.1
            · simpa using hf.2

/-- C2: when every chunk transcribes successfully (a `"text"` key and a
non-empty `segments` list, with recognized durations `dur f`), the batch
call starting from accumulated time `0` emits one record per chunk in
order; the `i`-th record's start is the formatted pre-chunk cumulative
time `fmtClock (d1 + ... + d_i)` (the value `format_timestamp` returns on
that float) and its duration is `dur f_i`, and the returned accumulated
time is the sum of all recognized durations. -/
theorem transcribe_audio_batch_timeline (pathExists : String → Bool)
    (oracle : String → Mode → TOutcome) (nlp : String → List Sent)
    (dur : String → ℚ) (files : List String)
    (h : ∀ f ∈ files, goodChunk pathExists oracle .gpu dur f) :
    (transcribe_audio_batch pathExists oracle nlp files .gpu 0).transcriptions.length
        = files.length ∧
    (∀ i (hi : i <
        (transcribe_audio_batch pathExists oracle nlp files .gpu 0).transcriptions.length)
        (hi' : i < files.length),
      ((transcribe_audio_batch pathExists oracle nlp files .gpu 0).transcriptions.get
          ⟨i, hi⟩).start = fmtClock (((files.take i).map dur).sum) ∧
      ((transcribe_audio_batch pathExists oracle nlp files .gpu 0).transcriptions.get
          ⟨i, hi⟩).duration = dur (files.get ⟨i, hi'⟩)) ∧
    (transcribe_audio_batch pathExists oracle nlp files .gpu 0).accumulated
        = (files.map dur).sum := by
  obtain ⟨recs, hloop, hlen, hfields⟩ :=
    batch_loop_all_good pathExists oracle nlp .gpu dur files [] 0 h
  have hb : transcribe_audio_batch pathExists oracle nlp files .gpu 0 =
      ⟨recs, (files.map dur).sum, .gpu, 0⟩ := by
    unfold transcribe_audio_batch
    rw [hloop]
    simp
  rw [hb]
  refine ⟨hlen, ?_, rfl⟩
  intro i hi hi'
  have hf := hfields i hi hi'
  exact ⟨by simpa using hf.1, hf.2⟩

/-- A concrete two-chunk batch used as the C2 witness. -/
def wfiles : List String := ["a.wav", "b.wav"]

/-- Recognized durations of the C2 witness chunks. -/
def wdur : String → ℚ := fun f => if f = "a.wav" then 10 else 20

/-- Oracle for the C2 witness: both chunks succeed with text and one
segment ending at their duration. -/
def woracle : String → Mode → TOutcome := fun f _ =>
  .ok { text? := some "hi", segments := [{ endTime? := some (wdur f) }] }

/-- All files exist. -/
def allExist : String → Bool := fun _ => true

/-- Witness for C2 on the concrete two-chunk batch. -/
theorem transcribe_audio_batch_timeline_witness :
    (∀ f ∈ wfiles, goodChunk allExist woracle .gpu wdur f) ∧
    ((transcribe_audio_batch allExist woracle nlpWhole wfiles .gpu 0).transcriptions.length
        = wfiles.length ∧
     (∀ i (hi : i <
         (transcribe_audio_batch allExist woracle nlpWhole wfiles .gpu 0).transcriptions.length)
         (hi' : i < wfiles.length),
       ((transcribe_audio_batch allExist woracle nlpWhole wfiles .gpu 0).transcriptions.get
           ⟨i, hi⟩).start = fmtClock (((wfiles.take i).map wdur).sum) ∧
       ((transcribe_audio_batch allExist woracle nlpWhole wfiles .gpu 0).transcriptions.get
           ⟨i, hi⟩).duration = wdur (wfiles.get ⟨i, hi'⟩)) ∧
     (transcribe_audio_batch allExist woracle nlpWhole wfiles .gpu 0).accumulated
        = (wfiles.map wdur).sum) :=
  ⟨fun f _ => ⟨rfl, { text? := some "hi", segments := [{ endTime? := some (wdur f) }] },
     rfl, rfl, by simp, rfl⟩,
   transcribe_audio_batch_timeline allExist woracle nlpWhole wdur wfiles
     (fun f _ => ⟨rfl, { text? := some "hi", segments := [{ endTime? := some (wdur f) }] },
       rfl, rfl, by simp, rfl⟩)⟩

/-- The success path emits a record exactly when the result has a `"text"`
key and a non-empty `segments` list. -/
theorem emitRecord_isSome_iff (nlp : String → List Sent) (r : TResult) (acc : ℚ) :
    (emitRecord nlp r acc).1.isSome = true ↔
      (r.text?.isSome = true ∧ r.segments ≠ []) := by
  cases htxt : r.text? <;> cases hsgs : r.segments <;>
    simp [emitRecord, htxt, hsgs]

/-- When the success path emits nothing, the accumulated time is unchanged. -/
theorem emitRecord_none_acc (nlp : String → List Sent) (r : TResult) (acc : ℚ) :
    (emitRecord nlp r acc).1 = none → (emitRecord nlp r acc).2 = acc := by
  cases htxt : r.text? <;> cases hsgs : r.segments <;>
    simp [emitRecord, htxt, hsgs]

/-- C10: starting on the accelerator, `transcribe_audio` emits a record if
and only if the chunk file exists, the effective recognition call (the GPU
call, or the CPU call after the one CUDA out-of-memory fallback) returns a
result with a `"text"` key and a non-empty `segments` list; in every other
case it returns `(None, accumulated_time)` with the accumulated time exactly
unchanged.  The hypothesis states the physical invariant that a CPU run
cannot raise a CUDA out-of-memory error. -/
theorem transcribe_audio_emits_iff (pathExists : String → Bool)
    (oracle : String → Mode → TOutcome) (nlp : String → List Sent)
    (f : String) (acc : ℚ) (hcpu : oracle f .cpu ≠ .cudaOOM) :
    ((transcribe_audio pathExists oracle nlp f .gpu acc).1.isSome = true ↔
      (pathExists f = true ∧ ∃ r, effectiveOutcome oracle f = .ok r ∧
        r.text?.isSome = true ∧ r.segments ≠ [])) ∧
    ((transcribe_audio pathExists oracle nlp f .gpu acc).1 = none →
      (transcribe_audio pathExists oracle nlp f .gpu acc).2.1 = acc) := by
  by_cases hex : pathExists f = true
  · cases horaG : oracle f .gpu with
    | ok r =>
        have heff : effectiveOutcome oracle f = .ok r := by
          simp [effectiveOutcome, horaG]
        constructor
        · simp only [transcribe_audio, hex, if_true, horaG, heff]
          rw [emitRecord_isSome_iff]
          constructor
          · exact fun hh => ⟨by trivial, r, rfl, hh.1, hh.2⟩
          · rintro ⟨-, r', hr', ht, hs⟩
            cases hr'
            exact ⟨ht, hs⟩
        · simp only [transcribe_audio, hex, if_true, horaG]
          exact emitRecord_none_acc nlp r acc
    | cudaOOM =>
        have heff : effectiveOutcome oracle f = oracle f .cpu := by
          simp [effectiveOutcome, horaG]
        cases horaC : oracle f .cpu with
        | ok r =>
            rw [horaC] at heff
            constructor
            · simp only [transcribe_audio, transcribe_audio_cpu, hex, if_true,
                horaG, horaC, heff]
              rw [emitRecord_isSome_iff]
              constructor
              · exact fun hh => ⟨by trivial, r, rfl, hh.1, hh.2⟩
              · rintro ⟨-, r', hr', ht, hs⟩
                cases hr'
                exact ⟨ht, hs⟩
            · simp only [transcribe_audio, transcribe_audio_cpu, hex, if_true,
                horaG, horaC]
              exact emitRecord_none_acc nlp r acc
        | cudaOOM => exact absurd horaC hcpu
        | runtimeErr =>
            rw [horaC] at heff
            constructor
            · simp [transcribe_audio, transcribe_audio_cpu, hex, horaG, horaC, heff]
            · simp [transcribe_audio, transcribe_audio_cpu, hex, horaG, horaC]
        | exc =>
            rw [horaC] at heff
            constructor
            · simp [transcribe_audio, transcribe_audio_cpu, hex, horaG, horaC, heff]
            · simp [transcribe_audio, transcribe_audio_cpu, hex, horaG, horaC]
    | runtimeErr =>
        have heff : effectiveOutcome oracle f = .runtimeErr := by
          simp [effectiveOutcome, horaG]
        constructor
        · simp [transcribe_audio, hex, horaG, heff]
        · simp [transcribe_audio, hex, horaG]
    | exc =>
        have heff : effectiveOutcome oracle f = .exc := by
          simp [effectiveOutcome, horaG]
        constructor
        · simp [transcribe_audio, hex, horaG, heff]
        · simp [transcribe_audio, hex, horaG]
  · constructor
    · simp [transcribe_audio, hex]
    · simp [transcribe_audio, hex]

/-- Oracle for the C10 witness: the GPU run hits CUDA out-of-memory, the
CPU fallback succeeds. -/
def oracleOOM : String → Mode → TOutcome := fun _ m =>
  match m with
  | .gpu => .cudaOOM
  | .cpu => .ok { text? := some "x", segments := [{ endTime? := some 5 }] }

/-- Witness for C10: a chunk whose GPU run hits CUDA out-of-memory and whose
CPU retry succeeds. -/
theorem transcribe_audio_emits_iff_witness :
    oracleOOM "f.wav" Mode.cpu ≠ TOutcome.cudaOOM ∧
    (((transcribe_audio allExist oracleOOM nlpWhole "f.wav" .gpu 0).1.isSome = true ↔
      (allExist "f.wav" = true ∧ ∃ r, effectiveOutcome oracleOOM "f.wav" = .ok r ∧
        r.text?.isSome = true ∧ r.segments ≠ [])) ∧
     ((transcribe_audio allExist oracleOOM nlpWhole "f.wav" .gpu 0).1 = none →
      (transcribe_audio allExist oracleOOM nlpWhole "f.wav" .gpu 0).2.1 = 0)) :=
  ⟨by decide, transcribe_audio_emits_iff allExist oracleOOM nlpWhole "f.wav" 0 (by decide)⟩

/-! ## C1: the batch CUDA fallback -/

/-- The three chunk files of the C1 scenario. -/
def cfiles : List String := ["c1.wav", "c2.wav", "c3.wav"]

/-- Recognized durations of the C1 chunks. -/
def cdur : String → ℚ :=
  fun f => if f = "c1.wav" then 10 else if f = "c2.wav" then 20 else 30

/-- Successful Whisper result for a C1 chunk. -/
def cres (f : String) : TResult :=
  { text? := some "t", segments := [{ endTime? := some (cdur f) }] }

/-- Oracle with a CUDA out-of-memory failure on chunk 2 of 3 in GPU mode;
every CPU run succeeds. -/
def oracleFail : String → Mode → TOutcome := fun f m =>
  match m with
  | .gpu => if f = "c2.wav" then .cudaOOM else .ok (cres f)
  | .cpu => .ok (cres f)

/-- Oracle of the failure-free reference run. -/
def oracleOk : String → Mode → TOutcome := fun f _ => .ok (cres f)

/-- C1 counterexample: with the out-of-memory failure on chunk 2 of 3, the
batch retries once on CPU from the mid-batch accumulated time (10s, chunk
1's duration already added), so the returned starts are shifted by 10s and
do not equal the no-failure run's starts, contrary to the claim. -/
theorem transcribe_audio_batch_oom_counterexample :
    (transcribe_audio_batch allExist oracleFail nlpWhole cfiles .gpu 0).transcriptions.map
        Record.start = ["[00:00:10]", "[00:00:20]", "[00:00:40]"] ∧
    (transcribe_audio_batch allExist oracleOk nlpWhole cfiles .gpu 0).transcriptions.map
        Record.start = ["[00:00:00]", "[00:00:10]", "[00:00:30]"] ∧
    (["[00:00:10]", "[00:00:20]", "[00:00:40]"] : List String) ≠
      ["[00:00:00]", "[00:00:10]", "[00:00:30]"] := by
  refine ⟨?_, ?_, by decide⟩
  · simp [transcribe_audio_batch, batch_loop, cfiles, oracleFail, cres,
      allExist, emitRecord, lastEnd, cdur]
    norm_num
    decide
  · simp [transcribe_audio_batch, batch_loop, cfiles, oracleOk, cres,
      allExist, emitRecord, lastEnd, cdur]
    norm_num
    decide

/-- C1 amended: when the GPU pass of the batch aborts with a CUDA
out-of-memory error (carrying the mid-batch accumulated time `accMid`) and
every chunk succeeds on CPU, the batch performs exactly one retry, in CPU
mode, rerunning the whole chunk list once: the partial records of the failed
pass are discarded, so exactly one record per chunk is returned, in order,
with no duplicates; but the retry resumes from the mid-batch accumulated
time, so the `i`-th record's start is `fmtClock (accMid + d1 + ... + d_i)` —
shifted by the durations accumulated before the failure rather than equal to
the no-failure run's starts — and the final accumulated time double-counts
those durations. -/
theorem transcribe_audio_batch_oom_amended (pathExists : String → Bool)
    (oracle : String → Mode → TOutcome) (nlp : String → List Sent)
    (dur : String → ℚ) (files : List String) (acc0 accMid : ℚ)
    (hfail : batch_loop pathExists oracle nlp .gpu files [] acc0 =
      .oomRestart accMid)
    (hcpu : ∀ f ∈ files, goodChunk pathExists oracle .cpu dur f) :
    (transcribe_audio_batch pathExists oracle nlp files .gpu acc0).retries = 1 ∧
    (transcribe_audio_batch pathExists oracle nlp files .gpu acc0).mode = .cpu ∧
    (transcribe_audio_batch pathExists oracle nlp files .gpu acc0).transcriptions.length
        = files.length ∧
    (∀ i (hi : i <
        (transcribe_audio_batch pathExists oracle nlp files .gpu acc0).transcriptions.length)
        (hi' : i < files.length),
      ((transcribe_audio_batch pathExists oracle nlp files .gpu acc0).transcriptions.get
          ⟨i, hi⟩).start = fmtClock (accMid + (((files.take i).map dur).sum)) ∧
      ((transcribe_audio_batch pathExists oracle nlp files .gpu acc0).transcriptions.get
          ⟨i, hi⟩).duration = dur (files.get ⟨i, hi'⟩)) ∧
    (transcribe_audio_batch pathExists oracle nlp files .gpu acc0).accumulated
        = accMid + (files.map dur).sum := by
  obtain ⟨recs, hloop, hlen, hfields⟩ :=
    batch_loop_all_good pathExists oracle nlp .cpu dur files [] accMid hcpu
  have hb : transcribe_audio_batch pathExists oracle nlp files .gpu acc0 =
      ⟨recs, accMid + (files.map dur).sum, .cpu, 1⟩ := by
    unfold transcribe_audio_batch
    rw [hfail]
    simp [hloop]
  rw [hb]
  exact ⟨rfl, rfl, hlen,
    fun i hi hi' => ⟨(hfields i hi hi').1, (hfields i hi hi').2⟩, rfl⟩

/-- Witness for the C1 amended theorem on the concrete failure-on-chunk-2
scenario (mid-batch accumulated time 10). -/
theorem transcribe_audio_batch_oom_amended_witness :
    batch_loop allExist oracleFail nlpWhole .gpu cfiles [] 0 =
      LoopResult.oomRestart 10 ∧
    (∀ f ∈ cfiles, goodChunk allExist oracleFail .cpu cdur f) ∧
    ((transcribe_audio_batch allExist oracleFail nlpWhole cfiles .gpu 0).retries = 1 ∧
     (transcribe_audio_batch allExist oracleFail nlpWhole cfiles .gpu 0).mode = .cpu ∧
     (transcribe_audio_batch allExist oracleFail nlpWhole cfiles .gpu 0).transcriptions.length
        = cfiles.length ∧
     (∀ i (hi : i <
         (transcribe_audio_batch allExist oracleFail nlpWhole cfiles .gpu 0).transcriptions.length)
         (hi' : i < cfiles.length),
       ((transcribe_audio_batch allExist oracleFail nlpWhole cfiles .gpu 0).transcriptions.get
           ⟨i, hi⟩).start = fmtClock (10 + (((cfiles.take i).map cdur).sum)) ∧
       ((transcribe_audio_batch allExist oracleFail nlpWhole cfiles .gpu 0).transcriptions.get
           ⟨i, hi⟩).duration = cdur (cfiles.get ⟨i, hi'⟩)) ∧
     (transcribe_audio_batch allExist oracleFail nlpWhole cfiles .gpu 0).accumulated
        = 10 + (cfiles.map cdur).sum) := by
  have hfail : batch_loop allExist oracleFail nlpWhole .gpu cfiles [] 0 =
      LoopResult.oomRestart 10 := by
    simp [batch_loop, cfiles, oracleFail, cres, allExist, emitRecord, lastEnd, cdur]
  have hcpu : ∀ f ∈ cfiles, goodChunk allExist oracleFail .cpu cdur f :=
    fun f _ => ⟨rfl, cres f, rfl, rfl, by simp [cres], rfl⟩
  exact ⟨hfail, hcpu,
    transcribe_audio_batch_oom_amended allExist oracleFail nlpWhole cdur cfiles
      0 10 hfail hcpu⟩

end XVoice
